import Mathlib

/-!
Verification of the FIT-file reader of `notebook_llm_lab`
(`src/notebook_llm_lab/ingestion/fit_reader.py` and the batch driver
`scripts/fit_to_parquet.py`).

The development shallowly embeds the reader: Python scalar values become the
inductive `Value` (numbers are modelled by `Int`/`Rat`, so the arithmetic of
the derived columns is exact rather than IEEE), a pandas cell is
`Option Value` (`none` models `NaN`/`NaT`/missing), a record's extracted
mapping and a DataFrame row are association lists with Python-dict update
semantics, and a DataFrame carries its integer index labels explicitly so
that `reset_index`/`ignore_index` are observable.  Fallible Python code is
embedded in `Except Unit`: every site where the source can raise is an
`Except.error`, and every `try/except` of the source is an explicit handler
in the corresponding definition.
-/

namespace FitReader

/-- A Python scalar value as it occurs in FIT records: integers, floats
(modelled exactly as rationals), strings, and datetime values (modelled by
an integer time coordinate). -/
inductive Value where
  | int (n : Int)
  | float (q : Rat)
  | str (s : String)
  | time (t : Int)
deriving DecidableEq, Repr

/-- A cell of a mapping or DataFrame: `none` models Python `None` /
pandas `NaN`/`NaT` / a missing key. -/
abbrev Cell := Option Value

/-- An extracted field mapping, and also one DataFrame row: an association
list from field name to cell, with Python-dict update semantics. -/
abbrev Row := List (String × Cell)

/-- Python dict lookup: first binding of the key (bindings are unique in
every mapping this development builds). Missing key reads as null. -/
def getCell : Row → String → Cell
  | [], _ => none
  | kv :: r, c => if kv.1 = c then kv.2 else getCell r c

/-- Python dict assignment `d[c] = v`: replace the binding in place if the
key exists, otherwise append the new binding (insertion order kept). -/
def setCell : Row → String → Cell → Row
  | [], c, v => [(c, v)]
  | kv :: r, c, v => if kv.1 = c then (c, v) :: r else kv :: setCell r c v

/-- A field object as yielded by the decoding library: `name` is the
`.name` attribute (`none` when absent) and `value` the `.value` attribute
(`none` when absent or `None`). Name attributes, when present, are strings. -/
structure FieldObj where
  name : Option String
  value : Cell
deriving DecidableEq, Repr

/-- What calling `record.get_values()` produces: a dict of name to value,
a non-dict object, or an exception. -/
inductive GVResult where
  | dict (entries : List (String × Cell))
  | notDict
  | raise
deriving DecidableEq, Repr

/-- A value stored in a `record.fields` dict: Python `None`, a plain value
(no `.value` attribute), or a field-like object carrying `.value`. -/
inductive DictEntry where
  | noneV
  | plain (v : Value)
  | fieldLike (f : FieldObj)
deriving DecidableEq, Repr

/-- The `record.fields` attribute: a dict or some other iterable of field
objects.  `raisesAfter` means iterating it raises after the listed items
were consumed (with `raisesAfter := true` and no items this also models an
attribute that is not iterable at all). -/
inductive FieldsAttr where
  | dict (entries : List (String × DictEntry)) (raisesAfter : Bool)
  | iter (items : List FieldObj) (raisesAfter : Bool)
deriving DecidableEq, Repr

/-- A raw record message from the decoding library, described by the three
capabilities `_extract_fields_from_message` probes: an optional callable
`get_values` (absent also covers a non-callable attribute), an optional
`fields` attribute (absent also covers `fields is None`), and the behaviour
of iterating the record itself: the yielded items plus a flag telling
whether the iteration raises (a non-iterable record is `([], true)`). -/
structure Record where
  get_values : Option GVResult
  fields : Option FieldsAttr
  iteration : List FieldObj × Bool
deriving DecidableEq, Repr

/-- Body of the strategy-1 `try` block of `_extract_fields_from_message`:
call `get_values()`; when it returns a dict, keep the non-null values. -/
def strat1try (r : Record) : Except Unit Row :=
  match r.get_values with
  | some .raise => .error ()
  | some (.dict es) =>
      .ok (es.foldl (fun m kv =>
        match kv.2 with
        | some v => setCell m kv.1 (some v)
        | none => m) [])
  | some .notDict => .ok []
  | none => .ok []

/-- One step of the strategy-2 dict branch: dict value `None` is skipped,
an object with a `.value` attribute contributes `.value` under
`getattr(v, "name", k)`, any other value is stored under the dict key. -/
def applyDictEntry (m : Row) (k : String) (e : DictEntry) : Row :=
  match e with
  | .noneV => m
  | .plain v => setCell m k (some v)
  | .fieldLike f =>
      match f.value with
      | some val => setCell m (f.name.getD k) (some val)
      | none => m

/-- One step of the iterable branches (strategy 2 non-dict, strategy 3):
`if name and value is not None: data[name] = value`; an absent name, an
empty (falsy) name, or a null value is skipped. -/
def applyFieldObj (m : Row) (f : FieldObj) : Row :=
  match f.name, f.value with
  | some n, some v => if n = "" then m else setCell m n (some v)
  | _, _ => m

/-- Run the strategy-2 loop over the `fields` attribute, returning the data
accumulated before any exception together with the raised flag. -/
def strat2run : FieldsAttr → Row × Bool
  | .dict es r => (es.foldl (fun m kv => applyDictEntry m kv.1 kv.2) [], r)
  | .iter its r => (its.foldl applyFieldObj [], r)

/-- Strategy 3 of `_extract_fields_from_message`: iterate the record itself,
adding to the data accumulated so far; if the iteration raises, the
`except` branch returns the empty dict literal, discarding everything. -/
def extractStage3 (d : Row) (it : List FieldObj × Bool) : Row :=
  if it.2 then [] else it.1.foldl applyFieldObj d

/-- Strategies 2 and 3 of `_extract_fields_from_message`: try the `fields`
attribute; return its data when the loop completed without raising and
produced something, otherwise continue into strategy 3 with whatever data
the interrupted loop had already accumulated. -/
def extractStage2 (r : Record) : Row :=
  match r.fields with
  | none => extractStage3 [] r.iteration
  | some fa =>
      let p := strat2run fa
      if p.2 = false ∧ p.1 ≠ [] then p.1 else extractStage3 p.1 r.iteration

/-- `_extract_fields_from_message`: strategy 1 (`get_values()` dict), with
its exception swallowed, then strategies 2 and 3. Returns on the first
strategy whose completed loop produced non-empty data. -/
def _extract_fields_from_message (r : Record) : Row :=
  match strat1try r with
  | .error _ => extractStage2 r
  | .ok d1 => if d1 ≠ [] then d1 else extractStage2 r

/-- Present (name, value) data as a record whose `get_values()` returns the
dict directly (the record has no `fields` attribute and is not iterable). -/
def gvRec (l : List (String × Cell)) : Record :=
  ⟨some (.dict l), none, ([], true)⟩

/-- Present (name, value) data as a `fields` dict of plain values
(`None` for a null value). -/
def fieldsDictPlainRec (l : List (String × Cell)) : Record :=
  ⟨none,
   some (.dict (l.map fun kv =>
     (kv.1, match kv.2 with
            | some v => DictEntry.plain v
            | none => DictEntry.noneV)) false),
   ([], true)⟩

/-- Present (name, value) data as a `fields` dict of field objects keyed by
their own names. -/
def fieldsDictObjRec (l : List (String × Cell)) : Record :=
  ⟨none,
   some (.dict (l.map fun kv => (kv.1, DictEntry.fieldLike ⟨some kv.1, kv.2⟩)) false),
   ([], true)⟩

/-- Present (name, value) data as a `fields` iterable of field objects. -/
def fieldsIterRec (l : List (String × Cell)) : Record :=
  ⟨none, some (.iter (l.map fun kv => ⟨some kv.1, kv.2⟩) false), ([], true)⟩

/-- Present (name, value) data as a record that is itself an iterable of
field objects (no `get_values`, no `fields`). -/
def iterRec (l : List (String × Cell)) : Record :=
  ⟨none, none, (l.map fun kv => ⟨some kv.1, kv.2⟩, false)⟩

/-- A pandas DataFrame: the ordered column list together with the rows,
each row paired with its integer index label (so that `sort_values`,
`reset_index(drop=True)` and `ignore_index=True` are observable).  A cell
missing from a row's association list reads as null, which is how
`DataFrame.from_records` widens rows with differing keys. -/
structure DF where
  cols : List String
  rows : List (Int × Row)
deriving DecidableEq, Repr

/-- `df.empty`: true when the frame has no rows or no columns. -/
def DF.isEmptyDF (df : DF) : Bool :=
  df.rows.isEmpty || df.cols.isEmpty

/-- Attach consecutive integer index labels starting at `i`. -/
def renumberFrom (i : Int) : List Row → List (Int × Row)
  | [] => []
  | r :: rs => (i, r) :: renumberFrom (i + 1) rs

/-- A fresh `RangeIndex`: labels 0, 1, 2, … -/
def renumber (rs : List Row) : List (Int × Row) :=
  renumberFrom 0 rs

/-- Append the keys of a row to an ordered column list, keeping first
occurrences only. -/
def unionCols (acc : List String) (r : Row) : List String :=
  r.foldl (fun a kv => if kv.1 ∈ a then a else a ++ [kv.1]) acc

/-- `pd.DataFrame.from_records`: columns are the union of the row keys in
order of first appearance; the index is a fresh range. -/
def from_records (rs : List Row) : DF :=
  { cols := rs.foldl unionCols [], rows := renumber rs }

/-- Column assignment `df[c] = f(row)`: a new column is appended at the
end, an existing one is overwritten in place; index labels are kept. -/
def setColF (df : DF) (c : String) (f : Row → Cell) : DF :=
  { cols := if c ∈ df.cols then df.cols else df.cols ++ [c],
    rows := df.rows.map (fun ir => (ir.1, setCell ir.2 c (f ir.2))) }

/-- Column assignment whose right-hand side is an elementwise computation
that can raise (as `df["distance"] / 1000.0` does on a non-numeric cell):
the whole series is computed first; if any element raises, the assignment
raises and the frame is not extended. -/
def setColFE (df : DF) (c : String) (f : Row → Except Unit Cell) : Except Unit DF :=
  if df.rows.all (fun ir => (f ir.2).isOk) then
    .ok (setColF df c (fun r => ((f r).toOption).join))
  else
    .error ()

/-- `pd.to_datetime(·, errors="coerce")` on one cell: datetime values pass
through, integers convert to a datetime, and every other value (strings,
fractional numbers, null) is modelled as unparsable and coerces to null.
No input raises.  The claims proved below do not depend on which values
parse, only on unparsable ones becoming null. -/
def toDatetimeCell : Cell → Cell
  | some (.time t) => some (.time t)
  | some (.int n) => some (.time n)
  | _ => none

/-- `cell / 1000.0`: numbers divide, null stays null, and a string or
datetime cell raises a `TypeError`. -/
def divide1000 : Cell → Except Unit Cell
  | none => .ok none
  | some (.int n) => .ok (some (.float ((n : Rat) / 1000)))
  | some (.float q) => .ok (some (.float (q / 1000)))
  | some (.str _) => .error ()
  | some (.time _) => .error ()

/-- The pace lambda applied to one `speed` cell:
`(1000.0 / v) / 60.0 if isinstance(v, (int, float)) and v > 0 else None`. -/
def paceCell : Cell → Cell
  | some (.int n) => if 0 < n then some (.float ((1000 : Rat) / (n : Rat) / 60)) else none
  | some (.float q) => if 0 < q then some (.float ((1000 : Rat) / q / 60)) else none
  | _ => none

/-- `cell * (180 / 2^31)` (semicircles to degrees): numbers multiply, null
stays null, and a string or datetime cell raises a `TypeError`. -/
def mulSemicircle : Cell → Except Unit Cell
  | none => .ok none
  | some (.int n) => .ok (some (.float ((n : Rat) * (180 / 2 ^ 31))))
  | some (.float q) => .ok (some (.float (q * (180 / 2 ^ 31))))
  | some (.str _) => .error ()
  | some (.time _) => .error ()

/-- `df.dropna(subset=["timestamp"])`: keep the rows whose timestamp cell
is non-null; index labels travel with their rows. -/
def dropnaTimestamp (df : DF) : DF :=
  { cols := df.cols,
    rows := df.rows.filter (fun ir => (getCell ir.2 "timestamp").isSome) }

/-- The sort key of a row: its timestamp coordinate (rows reaching the sort
always hold a datetime there; other shapes get a default key). -/
def rowTsKey (r : Row) : Int :=
  match getCell r "timestamp" with
  | some (.time t) => t
  | _ => 0

/-- The `sort_values("timestamp")` comparison, lifted to indexed rows. -/
def tsRel (a b : Int × Row) : Prop :=
  rowTsKey a.2 ≤ rowTsKey b.2

instance : DecidableRel tsRel :=
  fun a b => inferInstanceAs (Decidable (rowTsKey a.2 ≤ rowTsKey b.2))

instance : IsTotal (Int × Row) tsRel :=
  ⟨fun a b => Int.le_total (rowTsKey a.2) (rowTsKey b.2)⟩

instance : IsTrans (Int × Row) tsRel :=
  ⟨fun _ _ _ h h' => Int.le_trans h h'⟩

/-- `df.sort_values("timestamp")`: reorder the rows by timestamp; index
labels travel with their rows. -/
def sortByTimestamp (df : DF) : DF :=
  { cols := df.cols, rows := List.insertionSort tsRel df.rows }

/-- `df.reset_index(drop=True)`: renumber the index 0, 1, 2, … keeping the
row order. -/
def resetIndex (df : DF) : DF :=
  { cols := df.cols, rows := renumber (df.rows.map Prod.snd) }

/-- `_add_derived_columns`: the derived-column pass, translated statement
by statement (exception propagation written with `>>=`).  The result is
`Except` because the elementwise arithmetic of the `distance_km`/`lat`/
`lon` assignments raises on non-numeric cells; no `try/except` guards
these statements in the source. -/
def _add_derived_columns (df : DF) : Except Unit DF :=
  if df.isEmptyDF then .ok df
  else
    let d0 := if "timestamp" ∈ df.cols then
        setColF df "timestamp" (fun r => toDatetimeCell (getCell r "timestamp")) else df
    (if "distance" ∈ d0.cols then
        setColFE d0 "distance_km" (fun r => divide1000 (getCell r "distance")) else .ok d0) >>=
      fun d1 =>
    let d2 := if "speed" ∈ d1.cols then
        setColF d1 "pace_min_per_km" (fun r => paceCell (getCell r "speed")) else d1
    let d3 := if "enhanced_altitude" ∈ d2.cols ∧ "altitude" ∉ d2.cols then
        setColF d2 "altitude" (fun r => getCell r "enhanced_altitude") else d2
    (if "position_lat" ∈ d3.cols then
        setColFE d3 "lat" (fun r => mulSemicircle (getCell r "position_lat")) else .ok d3) >>=
      fun d4 =>
    (if "position_long" ∈ d4.cols then
        setColFE d4 "lon" (fun r => mulSemicircle (getCell r "position_long")) else .ok d4) >>=
      fun d5 =>
    .ok (if "timestamp" ∈ d5.cols then
        resetIndex (sortByTimestamp (dropnaTimestamp d5)) else d5)

/-- The state of the local name `df` inside `_add_derived_columns`, with
Python object identity made explicit: `orig` is the caller's object, `cur`
the object the local name currently denotes, and `isAlias` whether the two
are the same object (so that an in-place column assignment through the
local name would also be visible to the caller). -/
structure DfSt where
  orig : DF
  cur : DF
  isAlias : Bool
deriving DecidableEq, Repr

/-- An in-place column assignment `df[c] = …` executed on the state: it
rewrites the current object, and writes through to the caller's object
exactly when the local name still aliases it. -/
def stAssign (s : DfSt) (c : String) (f : Row → Cell) : DfSt :=
  let cur2 := setColF s.cur c f
  { orig := if s.isAlias then cur2 else s.orig, cur := cur2, isAlias := s.isAlias }

/-- As `stAssign`, for an assignment whose right-hand side can raise. -/
def stAssignE (s : DfSt) (c : String) (f : Row → Except Unit Cell) : Except Unit DfSt :=
  match setColFE s.cur c f with
  | .error e => .error e
  | .ok cur2 =>
      .ok { orig := if s.isAlias then cur2 else s.orig, cur := cur2, isAlias := s.isAlias }

/-- `_add_derived_columns` with the caller's object tracked: the returned
pair is (the caller's object after the call, the call's outcome).  The
statement `df = df.copy()` is the step that drops the alias; the final
`dropna/sort_values/reset_index` chain rebinds the local name to a fresh
object and so also clears the alias flag. -/
def _add_derived_columns_st (df0 : DF) : DF × Except Unit DF :=
  if df0.isEmptyDF then (df0, .ok df0)
  else
    let s : DfSt := ⟨df0, df0, true⟩
    let s : DfSt := { s with isAlias := false }
    let s := if "timestamp" ∈ s.cur.cols then
        stAssign s "timestamp" (fun r => toDatetimeCell (getCell r "timestamp")) else s
    match (if "distance" ∈ s.cur.cols then
        stAssignE s "distance_km" (fun r => divide1000 (getCell r "distance")) else .ok s) with
    | .error e => (s.orig, .error e)
    | .ok s =>
      let s := if "speed" ∈ s.cur.cols then
          stAssign s "pace_min_per_km" (fun r => paceCell (getCell r "speed")) else s
      let s := if "enhanced_altitude" ∈ s.cur.cols ∧ "altitude" ∉ s.cur.cols then
          stAssign s "altitude" (fun r => getCell r "enhanced_altitude") else s
      match (if "position_lat" ∈ s.cur.cols then
          stAssignE s "lat" (fun r => mulSemicircle (getCell r "position_lat")) else .ok s) with
      | .error e => (s.orig, .error e)
      | .ok s =>
        match (if "position_long" ∈ s.cur.cols then
            stAssignE s "lon" (fun r => mulSemicircle (getCell r "position_long")) else .ok s) with
        | .error e => (s.orig, .error e)
        | .ok s =>
          let s := if "timestamp" ∈ s.cur.cols then
              { s with cur := resetIndex (sortByTimestamp (dropnaTimestamp s.cur)),
                       isAlias := false } else s
          (s.orig, .ok s.cur)

/-- What decoding one FIT file yields: `corrupt` models any exception while
opening, decompressing, constructing the decoder, or iterating
`get_messages("record")`; `msgs` is a successful decode whose message list
may contain `None` entries. -/
inductive FitContent where
  | corrupt
  | msgs (ms : List (Option Record))
deriving Repr

/-- `read_fit`: read one file, with `avail` modelling whether the optional
`fitparse` import succeeded (`FitFile is None` when it did not).  Every
exception inside the function body is caught by its `try/except`, which
logs and returns an empty frame, so the function is total; its log lines
are returned alongside the frame. -/
def read_fit (avail : Bool) (name : String) (c : FitContent) : DF × List String :=
  if avail = false then
    (⟨[], []⟩,
     ["FIT reader library (fitparse) is not installed; cannot read FIT files."])
  else
    match c with
    | .corrupt => (⟨[], []⟩, ["Failed to read " ++ name])
    | .msgs ms =>
        let rows := ms.foldl (fun acc om =>
          match om with
          | none => acc
          | some r =>
              let fs := _extract_fields_from_message r
              if fs.isEmpty then acc else acc ++ [fs]) []
        if rows.isEmpty then (⟨[], []⟩, ["No record data in " ++ name])
        else (from_records rows, [])

/-- `read_and_clean_fit`: `_add_derived_columns(read_fit(path))`.  The
derived-column pass runs outside `read_fit`'s `try/except`, so its
exceptions propagate to the caller. -/
def read_and_clean_fit (avail : Bool) (name : String) (c : FitContent) :
    Except Unit (DF × List String) :=
  let p := read_fit avail name c
  match _add_derived_columns p.1 with
  | .error e => .error e
  | .ok df => .ok (df, p.2)

/-- Split a character list at every '.' (helper for `stem`; always returns
at least one part). -/
def splitOnDot : List Char → List (List Char)
  | [] => [[]]
  | c :: rest =>
      match splitOnDot rest with
      | [] => [[c]]
      | h :: t => if c = '.' then [] :: h :: t else (c :: h) :: t

/-- Join character-list parts with '.' (helper for `stem`). -/
def joinDots : List (List Char) → List Char
  | [] => []
  | [p] => p
  | p :: q :: t => p ++ '.' :: joinDots (q :: t)

/-- `Path.stem` on a file name: the name with its final dot-extension
removed; a name with no extension (including a bare dot-file such as
`.fit`, or a name ending in a dot) is returned unchanged. -/
def stem (s : String) : String :=
  match splitOnDot s.data with
  | [] => s
  | [_] => s
  | p :: ps =>
      if (p :: ps).getLast (by simp) = [] then s
      else if p = [] ∧ ps.length = 1 then s
      else ⟨joinDots ((p :: ps).dropLast)⟩

/-- The glob pair of `load_fit_dir`: a name matches `*.fit` or `*.fit.gz`. -/
def matchesFit (s : String) : Bool :=
  ".fit".data.isSuffixOf s.data || ".fit.gz".data.isSuffixOf s.data

/-- `df["run_id"] = p.stem`: tag every row of a file's frame. -/
def tagRunId (name : String) (df : DF) : DF :=
  setColF df "run_id" (fun _ => some (.str (stem name)))

/-- Lexicographic comparison of character lists by character code (how
Python compares the path strings that `sorted` orders). -/
def charListLe : List Char → List Char → Bool
  | [], _ => true
  | _ :: _, [] => false
  | a :: as, b :: bs =>
      if a.toNat < b.toNat then true
      else if b.toNat < a.toNat then false
      else charListLe as bs

/-- The sorted-by-name order in which `load_fit_dir` visits files. -/
def fileLe (a b : String × FitContent) : Prop :=
  charListLe a.1.data b.1.data = true

instance : DecidableRel fileLe :=
  fun a b => inferInstanceAs (Decidable (charListLe a.1.data b.1.data = true))

/-- `pd.concat(frames, ignore_index=True)`: columns are the union of the
per-frame columns in order of first appearance, the rows are concatenated
in frame order, and the index is a fresh range. -/
def concatDF (frames : List DF) : DF :=
  { cols := frames.foldl (fun a f =>
      f.cols.foldl (fun a2 c => if c ∈ a2 then a2 else a2 ++ [c]) a) [],
    rows := renumber (frames.foldl (fun a f => a ++ f.rows.map Prod.snd) []) }

/-- The per-file loop of `load_fit_dir`: clean each file; a file whose
frame is empty is skipped with a logged warning; a non-empty frame is
tagged with `run_id` and collected.  An exception raised by
`read_and_clean_fit` is not caught and aborts the loop. -/
def loadLoop (avail : Bool) : List (String × FitContent) →
    Except Unit (List DF × List String)
  | [] => .ok ([], [])
  | (name, c) :: rest =>
      match read_and_clean_fit avail name c with
      | .error e => .error e
      | .ok (df, lg) =>
          match loadLoop avail rest with
          | .error e => .error e
          | .ok (frames, logs) =>
              if df.isEmptyDF then
                .ok (frames, lg ++ ("Skipping empty or unreadable file: " ++ name) :: logs)
              else
                .ok (tagRunId name df :: frames, lg ++ logs)

/-- `load_fit_dir`: glob `*.fit` and `*.fit.gz` in the directory, visit the
matches in sorted-name order, and concatenate the tagged non-empty frames;
when no file produced a frame, return `pd.DataFrame()` (zero rows, zero
columns).  The directory is modelled as its listing of (name, content). -/
def load_fit_dir (avail : Bool) (files : List (String × FitContent)) :
    Except Unit (DF × List String) :=
  let all_files := List.insertionSort fileLe (files.filter (fun f => matchesFit f.1))
  match loadLoop avail all_files with
  | .error e => .error e
  | .ok (frames, logs) =>
      if frames.isEmpty then .ok (⟨[], []⟩, logs ++ ["No valid FIT files found"])
      else .ok (concatDF frames, logs)

/-- The write decision of `scripts/fit_to_parquet.py::main`: after loading,
the script returns without writing when the frame is empty, and also when
it has no columns; otherwise it writes the Parquet and CSV outputs. -/
def main_writes (df : DF) : Bool :=
  !df.isEmptyDF && !(df.cols.length == 0)

/-! ### Basic lemmas about rows and column assignment -/

theorem getCell_setCell_eq (r : Row) (c : String) (v : Cell) :
    getCell (setCell r c v) c = v := by
  induction r with
  | nil => simp [setCell, getCell]
  | cons kv r ih =>
      by_cases h : kv.1 = c
      · simp [setCell, getCell, h]
      · simp [setCell, getCell, h, ih]

theorem getCell_setCell_ne (r : Row) (c c' : String) (v : Cell) (h : c' ≠ c) :
    getCell (setCell r c v) c' = getCell r c' := by
  have hcc : c ≠ c' := fun hc => h hc.symm
  induction r with
  | nil => simp [setCell, getCell, hcc]
  | cons kv r ih =>
      by_cases hk : kv.1 = c
      · subst hk
        simp [setCell, getCell, hcc]
      · simp only [setCell, if_neg hk, getCell]
        by_cases hk' : kv.1 = c'
        · simp [hk']
        · simp [hk', ih]

theorem mem_setColF_rows {df : DF} {c : String} {f : Row → Cell} {ir : Int × Row}
    (h : ir ∈ (setColF df c f).rows) :
    ∃ jr ∈ df.rows, ir = (jr.1, setCell jr.2 c (f jr.2)) := by
  rcases List.mem_map.mp h with ⟨jr, hjr, hEq⟩
  exact ⟨jr, hjr, hEq.symm⟩

theorem setColF_cols_self (df : DF) (c : String) (f : Row → Cell) :
    c ∈ (setColF df c f).cols := by
  unfold setColF
  by_cases h : c ∈ df.cols <;> simp [h]

theorem setColF_cols_mono {df : DF} {c' : String} (c : String) (f : Row → Cell)
    (h : c' ∈ df.cols) : c' ∈ (setColF df c f).cols := by
  unfold setColF
  by_cases hc : c ∈ df.cols <;> simp [hc, h]

theorem setColF_cols_sub {df : DF} {c c' : String} {f : Row → Cell}
    (h : c' ∈ (setColF df c f).cols) : c' ∈ df.cols ∨ c' = c := by
  unfold setColF at h
  by_cases hc : c ∈ df.cols
  · simp [hc] at h; exact Or.inl h
  · simp [hc] at h; exact h

theorem setColF_map_fst (df : DF) (c : String) (f : Row → Cell) :
    (setColF df c f).rows.map Prod.fst = df.rows.map Prod.fst := by
  simp [setColF]

theorem setColFE_ok {df d' : DF} {c : String} {f : Row → Except Unit Cell}
    (h : setColFE df c f = .ok d') :
    d' = setColF df c (fun r => ((f r).toOption).join) := by
  unfold setColFE at h
  split at h
  · exact (Except.ok.injEq _ _ |>.mp h).symm
  · cases h

/-- Facts about one optional column-assignment step, `if p then df[c] = f else skip`. -/
theorem ite_setColF_cols_mono {df : DF} {c' : String} (p : Prop) [Decidable p]
    (c : String) (f : Row → Cell) (h : c' ∈ df.cols) :
    c' ∈ (if p then setColF df c f else df).cols := by
  split
  · exact setColF_cols_mono c f h
  · exact h

theorem ite_setColF_cols_sub {df : DF} {c c' : String} {f : Row → Cell} {p : Prop}
    [Decidable p] (h : c' ∈ (if p then setColF df c f else df).cols) :
    c' ∈ df.cols ∨ c' = c := by
  split at h
  · exact setColF_cols_sub h
  · exact Or.inl h

theorem ite_setColF_map_fst (df : DF) (p : Prop) [Decidable p] (c : String)
    (f : Row → Cell) :
    (if p then setColF df c f else df).rows.map Prod.fst = df.rows.map Prod.fst := by
  split
  · exact setColF_map_fst df c f
  · rfl

theorem ite_setColF_rows_src {df : DF} {c : String} {f : Row → Cell} {p : Prop}
    [Decidable p] {ir : Int × Row} (h : ir ∈ (if p then setColF df c f else df).rows) :
    ∃ jr ∈ df.rows, ∀ c0, c0 ≠ c → getCell ir.2 c0 = getCell jr.2 c0 := by
  by_cases hp : p
  · rw [if_pos hp] at h
    obtain ⟨jr, hjr, hEq⟩ := mem_setColF_rows h
    refine ⟨jr, hjr, fun c0 hne => ?_⟩
    rw [hEq]
    exact getCell_setCell_ne _ _ _ _ hne
  · rw [if_neg hp] at h
    exact ⟨ir, h, fun _ _ => rfl⟩

theorem ite_setColFE_ok {df d' : DF} {c : String} {f : Row → Except Unit Cell}
    {p : Prop} [Decidable p]
    (h : (if p then setColFE df c f else .ok df) = .ok d') :
    d' = (if p then setColF df c (fun r => ((f r).toOption).join) else df) := by
  by_cases hp : p
  · rw [if_pos hp] at h
    rw [if_pos hp]
    exact setColFE_ok h
  · rw [if_neg hp] at h
    rw [if_neg hp]
    exact ((Except.ok.injEq _ _).mp h).symm

theorem mem_renumberFrom {i : Int} {rs : List Row} {ir : Int × Row}
    (h : ir ∈ renumberFrom i rs) : ir.2 ∈ rs := by
  induction rs generalizing i with
  | nil => cases h
  | cons r rs ih =>
      rw [renumberFrom] at h
      rcases List.mem_cons.mp h with hEq | hmem
      · rw [hEq]
        exact List.mem_cons_self _ _
      · exact List.mem_cons_of_mem _ (ih hmem)

theorem renumberFrom_map_snd (i : Int) (rs : List Row) :
    (renumberFrom i rs).map Prod.snd = rs := by
  induction rs generalizing i with
  | nil => rfl
  | cons r rs ih => simp [renumberFrom, ih]

theorem renumberFrom_map_fst (i : Int) (rs : List Row) :
    (renumberFrom i rs).map Prod.fst
      = (List.range rs.length).map (fun k : Nat => i + (k : Int)) := by
  induction rs generalizing i with
  | nil => rfl
  | cons r rs ih =>
      rw [renumberFrom, List.map_cons, ih, List.length_cons, List.range_succ_eq_map,
        List.map_cons, List.map_map]
      congr 1
      · simp
      · apply List.map_congr_left
        intro k _
        simp only [Function.comp_apply]
        push_cast
        ring

theorem renumber_map_fst (rs : List Row) :
    (renumber rs).map Prod.fst = (List.range rs.length).map (fun k : Nat => (k : Int)) := by
  rw [renumber, renumberFrom_map_fst]
  apply List.map_congr_left
  intro k _
  simp

theorem toDatetimeCell_shape (c : Cell) :
    toDatetimeCell c = none ∨ ∃ t, toDatetimeCell c = some (.time t) := by
  match c with
  | none => exact Or.inl rfl
  | some (.int n) => exact Or.inr ⟨n, rfl⟩
  | some (.float _) => exact Or.inl rfl
  | some (.str _) => exact Or.inl rfl
  | some (.time t) => exact Or.inr ⟨t, rfl⟩

theorem except_bind_ok {α β : Type} {e : Except Unit α} {f : α → Except Unit β} {b : β}
    (h : (e >>= f) = .ok b) : ∃ a, e = .ok a ∧ f a = .ok b := by
  cases e with
  | error u =>
      exfalso
      have : (Except.error u : Except Unit β) = .ok b := h
      cases this
  | ok a =>
      refine ⟨a, rfl, ?_⟩
      exact h

/-- Decomposition of a successful run of the derived-column pass on a
non-empty frame: there is an intermediate frame `d` (the frame after the
five conditional column assignments) with the listed properties, and the
result is `d` after the conditional drop/sort/re-index tail. -/
theorem addDerived_ok_decomp {df res : DF} (h0 : df.isEmptyDF = false)
    (hok : _add_derived_columns df = .ok res) :
    ∃ d : DF,
      (("timestamp" ∈ d.cols) ↔ ("timestamp" ∈ df.cols)) ∧
      ("speed" ∈ df.cols → "pace_min_per_km" ∈ d.cols) ∧
      d.rows.map Prod.fst = df.rows.map Prod.fst ∧
      ("timestamp" ∈ df.cols → ∀ ir ∈ d.rows,
        getCell ir.2 "timestamp" = none ∨ ∃ t, getCell ir.2 "timestamp" = some (.time t)) ∧
      ("speed" ∈ df.cols → ∀ ir ∈ d.rows,
        getCell ir.2 "pace_min_per_km" = paceCell (getCell ir.2 "speed")) ∧
      res = (if "timestamp" ∈ d.cols then
          resetIndex (sortByTimestamp (dropnaTimestamp d)) else d) := by
  unfold _add_derived_columns at hok
  rw [h0] at hok
  simp only [Bool.false_eq_true, if_false] at hok
  obtain ⟨d1, hE1, hok⟩ := except_bind_ok hok
  obtain ⟨d4, hE4, hok⟩ := except_bind_ok hok
  obtain ⟨d5, hE5, hok⟩ := except_bind_ok hok
  have hres := (Except.ok.injEq _ _).mp hok
  have hd1 := ite_setColFE_ok hE1
  have hd4 := ite_setColFE_ok hE4
  have hd5 := ite_setColFE_ok hE5
  subst hd1 hd4 hd5
  refine ⟨_, ?_, ?_, ?_, ?_, ?_, hres.symm⟩
  · constructor
    · intro h6
      have h5 := (ite_setColF_cols_sub h6).resolve_right (by decide)
      have h4 := (ite_setColF_cols_sub h5).resolve_right (by decide)
      have h3 := (ite_setColF_cols_sub h4).resolve_right (by decide)
      have h2 := (ite_setColF_cols_sub h3).resolve_right (by decide)
      have h1 := (ite_setColF_cols_sub h2).resolve_right (by decide)
      by_cases hts : "timestamp" ∈ df.cols
      · exact hts
      · rw [if_neg hts] at h1
        exact h1
    · intro h0
      exact ite_setColF_cols_mono _ _ _ (ite_setColF_cols_mono _ _ _
        (ite_setColF_cols_mono _ _ _ (ite_setColF_cols_mono _ _ _
          (ite_setColF_cols_mono _ _ _ (ite_setColF_cols_mono _ _ _ h0)))))
  · intro hsp
    have hsp2 : "speed" ∈
        (if "distance" ∈
            (if "timestamp" ∈ df.cols then
              setColF df "timestamp" (fun r => toDatetimeCell (getCell r "timestamp"))
            else df).cols then
          setColF
            (if "timestamp" ∈ df.cols then
              setColF df "timestamp" (fun r => toDatetimeCell (getCell r "timestamp"))
            else df) "distance_km"
            (fun r => ((divide1000 (getCell r "distance")).toOption).join)
        else
          (if "timestamp" ∈ df.cols then
            setColF df "timestamp" (fun r => toDatetimeCell (getCell r "timestamp"))
          else df)).cols :=
      ite_setColF_cols_mono _ _ _ (ite_setColF_cols_mono _ _ _ hsp)
    apply ite_setColF_cols_mono
    apply ite_setColF_cols_mono
    apply ite_setColF_cols_mono
    rw [if_pos hsp2]
    exact setColF_cols_self _ _ _
  · simp only [ite_setColF_map_fst]
  · intro hts ir hmem
    obtain ⟨j5, hj5, hc5⟩ := ite_setColF_rows_src hmem
    obtain ⟨j4, hj4, hc4⟩ := ite_setColF_rows_src hj5
    obtain ⟨j3, hj3, hc3⟩ := ite_setColF_rows_src hj4
    obtain ⟨j2, hj2, hc2⟩ := ite_setColF_rows_src hj3
    obtain ⟨j1, hj1, hc1⟩ := ite_setColF_rows_src hj2
    rw [if_pos hts] at hj1
    obtain ⟨j0, hj0, hEq⟩ := mem_setColF_rows hj1
    rw [hc5 _ (by decide), hc4 _ (by decide), hc3 _ (by decide), hc2 _ (by decide),
      hc1 _ (by decide), hEq]
    simp only [getCell_setCell_eq]
    exact toDatetimeCell_shape _
  · intro hsp ir hmem
    obtain ⟨j5, hj5, hc5⟩ := ite_setColF_rows_src hmem
    obtain ⟨j4, hj4, hc4⟩ := ite_setColF_rows_src hj5
    obtain ⟨j3, hj3, hc3⟩ := ite_setColF_rows_src hj4
    rw [if_pos (ite_setColF_cols_mono _ _ _ (ite_setColF_cols_mono _ _ _ hsp))] at hj3
    obtain ⟨j2, hj2, hEq⟩ := mem_setColF_rows hj3
    rw [hc5 "pace_min_per_km" (by decide), hc4 "pace_min_per_km" (by decide),
      hc3 "pace_min_per_km" (by decide), hc5 "speed" (by decide), hc4 "speed" (by decide),
      hc3 "speed" (by decide), hEq]
    simp only [getCell_setCell_eq,
      getCell_setCell_ne _ _ _ _ (by decide : "speed" ≠ "pace_min_per_km")]

/-! ### Non-null values in extractor output -/

theorem setCell_all_isSome {r : Row} {c : String} {v : Value}
    (h : r.all (fun kv => kv.2.isSome) = true) :
    (setCell r c (some v)).all (fun kv => kv.2.isSome) = true := by
  induction r with
  | nil => simp [setCell]
  | cons kv r ih =>
      by_cases hk : kv.1 = c
      · simp only [List.all_cons, Bool.and_eq_true] at h
        simp [setCell, hk, h.2]
      · simp only [List.all_cons, Bool.and_eq_true] at h
        simp only [setCell, if_neg hk, List.all_cons, Bool.and_eq_true]
        exact ⟨h.1, ih h.2⟩

theorem foldGV_all_isSome (es : List (String × Cell)) (m : Row)
    (h : m.all (fun kv => kv.2.isSome) = true) :
    (es.foldl (fun m kv =>
      match kv.2 with
      | some v => setCell m kv.1 (some v)
      | none => m) m).all (fun kv => kv.2.isSome) = true := by
  induction es generalizing m with
  | nil => exact h
  | cons e es ih =>
      rw [List.foldl_cons]
      cases hv : e.2 with
      | none =>
          apply ih
          simpa [hv] using h
      | some v =>
          apply ih
          simp only [hv]
          exact setCell_all_isSome h

theorem applyDictEntry_all_isSome {m : Row} (k : String) (e : DictEntry)
    (h : m.all (fun kv => kv.2.isSome) = true) :
    (applyDictEntry m k e).all (fun kv => kv.2.isSome) = true := by
  cases e with
  | noneV => exact h
  | plain v => exact setCell_all_isSome h
  | fieldLike f =>
      cases hv : f.value with
      | none => simpa [applyDictEntry, hv] using h
      | some v =>
          simp only [applyDictEntry, hv]
          exact setCell_all_isSome h

theorem applyFieldObj_all_isSome {m : Row} (f : FieldObj)
    (h : m.all (fun kv => kv.2.isSome) = true) :
    (applyFieldObj m f).all (fun kv => kv.2.isSome) = true := by
  unfold applyFieldObj
  cases hn : f.name with
  | none => exact h
  | some n =>
      cases hv : f.value with
      | none => exact h
      | some v =>
          by_cases hne : n = ""
          · simpa [hne] using h
          · simp only [if_neg hne]
            exact setCell_all_isSome h

theorem foldFO_all_isSome (its : List FieldObj) (m : Row)
    (h : m.all (fun kv => kv.2.isSome) = true) :
    (its.foldl applyFieldObj m).all (fun kv => kv.2.isSome) = true := by
  induction its generalizing m with
  | nil => exact h
  | cons f its ih => exact ih _ (applyFieldObj_all_isSome f h)

theorem strat2run_all_isSome (fa : FieldsAttr) :
    (strat2run fa).1.all (fun kv => kv.2.isSome) = true := by
  cases fa with
  | dict es r =>
      show (es.foldl (fun m kv => applyDictEntry m kv.1 kv.2) []).all _ = true
      generalize hstart : ([] : Row) = m0
      have hm0 : m0.all (fun kv => kv.2.isSome) = true := by rw [← hstart]; rfl
      clear hstart
      induction es generalizing m0 with
      | nil => exact hm0
      | cons e es ih => exact ih _ (applyDictEntry_all_isSome e.1 e.2 hm0)
  | iter its r => exact foldFO_all_isSome its [] rfl

theorem extractStage3_all_isSome {d : Row} (it : List FieldObj × Bool)
    (h : d.all (fun kv => kv.2.isSome) = true) :
    (extractStage3 d it).all (fun kv => kv.2.isSome) = true := by
  unfold extractStage3
  split
  · rfl
  · exact foldFO_all_isSome it.1 d h

theorem extractStage2_all_isSome (r : Record) :
    (extractStage2 r).all (fun kv => kv.2.isSome) = true := by
  unfold extractStage2
  cases r.fields with
  | none => exact extractStage3_all_isSome _ rfl
  | some fa =>
      simp only
      split
      · exact strat2run_all_isSome fa
      · exact extractStage3_all_isSome _ (strat2run_all_isSome fa)

theorem strat1try_all_isSome {r : Record} {d : Row} (h : strat1try r = .ok d) :
    d.all (fun kv => kv.2.isSome) = true := by
  unfold strat1try at h
  cases hg : r.get_values with
  | none =>
      rw [hg] at h
      cases h
      rfl
  | some gv =>
      cases gv with
      | raise => rw [hg] at h; cases h
      | notDict => rw [hg] at h; cases h; rfl
      | dict es =>
          rw [hg] at h
          cases h
          exact foldGV_all_isSome es [] rfl

/-- C5: for every record object, whatever extraction strategy produced the
result, no key of the extractor's output mapping is bound to a null value. -/
theorem C5_extractor_output_never_null (r : Record) :
    (_extract_fields_from_message r).all (fun kv => kv.2.isSome) = true := by
  unfold _extract_fields_from_message
  cases h1 : strat1try r with
  | error e => exact extractStage2_all_isSome r
  | ok d1 =>
      simp only
      split
      · exact strat1try_all_isSome h1
      · exact extractStage2_all_isSome r

/-- C8: when the decoding library could not be imported (`FitFile is
None`), every read call logs the condition and returns an empty frame, and
the full per-file read-and-clean path returns normally (no exception)
with that empty frame. -/
theorem C8_missing_library_fails_closed (name : String) (c : FitContent) :
    read_fit false name c =
      (⟨[], []⟩,
       ["FIT reader library (fitparse) is not installed; cannot read FIT files."]) ∧
    read_and_clean_fit false name c =
      .ok (⟨[], []⟩,
       ["FIT reader library (fitparse) is not installed; cannot read FIT files."]) := by
  constructor
  · rfl
  · rfl

/-! ### The caller's frame is untouched by the derived-column pass -/

theorem stAssign_shape (s : DfSt) (c : String) (f : Row → Cell)
    (hA : s.isAlias = false) :
    stAssign s c f = ⟨s.orig, setColF s.cur c f, false⟩ := by
  unfold stAssign
  rw [hA]
  simp

theorem ite_stAssign_shape (s : DfSt) (p : Prop) [Decidable p] (c : String)
    (f : Row → Cell) (hA : s.isAlias = false) :
    (if p then stAssign s c f else s)
      = ⟨s.orig, (if p then setColF s.cur c f else s.cur), false⟩ := by
  by_cases hp : p
  · rw [if_pos hp, if_pos hp]
    exact stAssign_shape s c f hA
  · rw [if_neg hp, if_neg hp]
    cases s
    simp only at hA
    rw [hA]

theorem ite_stAssignE_shape (s : DfSt) (p : Prop) [Decidable p] (c : String)
    (f : Row → Except Unit Cell) (hA : s.isAlias = false) :
    (if p then stAssignE s c f else .ok s)
      = Except.map (fun cur2 => DfSt.mk s.orig cur2 false)
          (if p then setColFE s.cur c f else .ok s.cur) := by
  by_cases hp : p
  · rw [if_pos hp, if_pos hp]
    unfold stAssignE
    cases hE : setColFE s.cur c f with
    | error e => simp [Except.map]
    | ok cur2 => simp [Except.map, hA]
  · rw [if_neg hp, if_neg hp]
    cases s
    simp only at hA
    rw [hA]
    simp [Except.map]

/-- C10: the derived-column pass operates on a copy: after the call the
caller's object is unchanged (same columns, rows, values and index),
including in the empty-table case; and its outcome is exactly the pure
derived-column pass. -/
theorem C10_add_derived_columns_frame (df : DF) :
    (_add_derived_columns_st df).1 = df ∧
    (_add_derived_columns_st df).2 = _add_derived_columns df := by
  by_cases h0 : df.isEmptyDF
  · simp [_add_derived_columns_st, _add_derived_columns, h0]
  · unfold _add_derived_columns_st _add_derived_columns
    rw [if_neg h0, if_neg h0]
    dsimp only
    rw [ite_stAssign_shape _ _ _ _ rfl]
    dsimp only
    rw [ite_stAssignE_shape _ _ _ _ rfl]
    dsimp only
    cases hE1 : (if "distance" ∈
        (if "timestamp" ∈ df.cols then
          setColF df "timestamp" fun r => toDatetimeCell (getCell r "timestamp")
        else df).cols then
        setColFE
          (if "timestamp" ∈ df.cols then
            setColF df "timestamp" fun r => toDatetimeCell (getCell r "timestamp")
          else df) "distance_km" fun r => divide1000 (getCell r "distance")
      else
        Except.ok
          (if "timestamp" ∈ df.cols then
            setColF df "timestamp" fun r => toDatetimeCell (getCell r "timestamp")
          else df)) with
    | error e => simp [Except.map, Bind.bind, Except.bind]
    | ok d1 =>
        simp only [Except.map, Bind.bind, Except.bind]
        rw [ite_stAssign_shape ⟨df, d1, false⟩ _ _ _ rfl]
        dsimp only
        rw [ite_stAssign_shape
          ⟨df, (if "speed" ∈ d1.cols then
            setColF d1 "pace_min_per_km" fun r => paceCell (getCell r "speed")
          else d1), false⟩ _ _ _ rfl]
        dsimp only
        rw [ite_stAssignE_shape _ _ _ _ rfl]
        dsimp only
        cases hE4 : (if "position_lat" ∈
            (if "enhanced_altitude" ∈
                (if "speed" ∈ d1.cols then
                  setColF d1 "pace_min_per_km" fun r => paceCell (getCell r "speed")
                else d1).cols ∧
              "altitude" ∉
                (if "speed" ∈ d1.cols then
                  setColF d1 "pace_min_per_km" fun r => paceCell (getCell r "speed")
                else d1).cols then
              setColF
                (if "speed" ∈ d1.cols then
                  setColF d1 "pace_min_per_km" fun r => paceCell (getCell r "speed")
                else d1) "altitude" fun r => getCell r "enhanced_altitude"
            else
              (if "speed" ∈ d1.cols then
                setColF d1 "pace_min_per_km" fun r => paceCell (getCell r "speed")
              else d1)).cols then
            setColFE
              (if "enhanced_altitude" ∈
                  (if "speed" ∈ d1.cols then
                    setColF d1 "pace_min_per_km" fun r => paceCell (getCell r "speed")
                  else d1).cols ∧
                "altitude" ∉
                  (if "speed" ∈ d1.cols then
                    setColF d1 "pace_min_per_km" fun r => paceCell (getCell r "speed")
                  else d1).cols then
                setColF
                  (if "speed" ∈ d1.cols then
                    setColF d1 "pace_min_per_km" fun r => paceCell (getCell r "speed")
                  else d1) "altitude" fun r => getCell r "enhanced_altitude"
              else
                (if "speed" ∈ d1.cols then
                  setColF d1 "pace_min_per_km" fun r => paceCell (getCell r "speed")
                else d1)) "lat" fun r => mulSemicircle (getCell r "position_lat")
          else
            Except.ok
              (if "enhanced_altitude" ∈
                  (if "speed" ∈ d1.cols then
                    setColF d1 "pace_min_per_km" fun r => paceCell (getCell r "speed")
                  else d1).cols ∧
                "altitude" ∉
                  (if "speed" ∈ d1.cols then
                    setColF d1 "pace_min_per_km" fun r => paceCell (getCell r "speed")
                  else d1).cols then
                setColF
                  (if "speed" ∈ d1.cols then
                    setColF d1 "pace_min_per_km" fun r => paceCell (getCell r "speed")
                  else d1) "altitude" fun r => getCell r "enhanced_altitude"
              else
                (if "speed" ∈ d1.cols then
                  setColF d1 "pace_min_per_km" fun r => paceCell (getCell r "speed")
                else d1))) with
        | error e => simp [Except.map, Bind.bind, Except.bind]
        | ok d4 =>
            simp only [Except.map, Bind.bind, Except.bind]
            rw [ite_stAssignE_shape _ _ _ _ rfl]
            dsimp only
            cases hE5 : (if "position_long" ∈ d4.cols then
                setColFE d4 "lon" fun r => mulSemicircle (getCell r "position_long")
              else Except.ok d4) with
            | error e => simp [Except.map, Bind.bind, Except.bind]
            | ok d5 =>
                simp only [Except.map, Bind.bind, Except.bind]
                by_cases hts : "timestamp" ∈ d5.cols
                · rw [if_pos hts, if_pos hts]
                  exact ⟨rfl, rfl⟩
                · rw [if_neg hts, if_neg hts]
                  exact ⟨rfl, rfl⟩

/-! ### Equivalence of the extraction strategies on equivalent data -/

/-- The mapping strategy 1 builds from a `get_values()` dict: the non-null
entries, in order, with dict-update semantics. -/
def gvFold (l : List (String × Cell)) : Row :=
  l.foldl (fun m kv =>
    match kv.2 with
    | some v => setCell m kv.1 (some v)
    | none => m) []

theorem foldFO_eq_gvFold (l : List (String × Cell)) (m : Row)
    (h : ∀ kv ∈ l, kv.1 ≠ "") :
    (l.map (fun kv => (⟨some kv.1, kv.2⟩ : FieldObj))).foldl applyFieldObj m
      = l.foldl (fun m kv =>
          match kv.2 with
          | some v => setCell m kv.1 (some v)
          | none => m) m := by
  induction l generalizing m with
  | nil => rfl
  | cons kv l ih =>
      have hk : kv.1 ≠ "" := h kv (List.mem_cons_self _ _)
      rw [List.map_cons, List.foldl_cons, List.foldl_cons]
      have hstep : applyFieldObj m ⟨some kv.1, kv.2⟩
          = (match kv.2 with | some v => setCell m kv.1 (some v) | none => m) := by
        cases kv.2 with
        | none => rfl
        | some v => simp [applyFieldObj, hk]
      rw [hstep]
      exact ih _ (fun x hx => h x (List.mem_cons_of_mem _ hx))

theorem foldDictPlain_eq_gvFold (l : List (String × Cell)) (m : Row) :
    ((l.map fun kv => (kv.1,
        match kv.2 with
        | some v => DictEntry.plain v
        | none => DictEntry.noneV)).foldl
      (fun m kv => applyDictEntry m kv.1 kv.2) m)
      = l.foldl (fun m kv =>
          match kv.2 with
          | some v => setCell m kv.1 (some v)
          | none => m) m := by
  induction l generalizing m with
  | nil => rfl
  | cons kv l ih =>
      rw [List.map_cons, List.foldl_cons, List.foldl_cons]
      have hstep : applyDictEntry m kv.1
            (match kv.2 with
             | some v => DictEntry.plain v
             | none => DictEntry.noneV)
          = (match kv.2 with | some v => setCell m kv.1 (some v) | none => m) := by
        cases kv.2 <;> rfl
      rw [hstep]
      exact ih _

theorem foldDictObj_eq_gvFold (l : List (String × Cell)) (m : Row) :
    ((l.map fun kv => (kv.1, DictEntry.fieldLike ⟨some kv.1, kv.2⟩)).foldl
      (fun m kv => applyDictEntry m kv.1 kv.2) m)
      = l.foldl (fun m kv =>
          match kv.2 with
          | some v => setCell m kv.1 (some v)
          | none => m) m := by
  induction l generalizing m with
  | nil => rfl
  | cons kv l ih =>
      rw [List.map_cons, List.foldl_cons, List.foldl_cons]
      have hstep : applyDictEntry m kv.1 (DictEntry.fieldLike ⟨some kv.1, kv.2⟩)
          = (match kv.2 with | some v => setCell m kv.1 (some v) | none => m) := by
        cases kv.2 <;> rfl
      rw [hstep]
      exact ih _

theorem extract_gvRec (l : List (String × Cell)) :
    _extract_fields_from_message (gvRec l)
      = if gvFold l ≠ [] then gvFold l else [] := by
  unfold _extract_fields_from_message gvRec strat1try extractStage2 extractStage3 gvFold
  rfl

theorem extract_fieldsDictPlainRec (l : List (String × Cell)) :
    _extract_fields_from_message (fieldsDictPlainRec l)
      = if gvFold l ≠ [] then gvFold l else [] := by
  unfold _extract_fields_from_message fieldsDictPlainRec strat1try extractStage2
    extractStage3 strat2run
  rw [gvFold, ← foldDictPlain_eq_gvFold]
  simp

theorem extract_fieldsDictObjRec (l : List (String × Cell)) :
    _extract_fields_from_message (fieldsDictObjRec l)
      = if gvFold l ≠ [] then gvFold l else [] := by
  unfold _extract_fields_from_message fieldsDictObjRec strat1try extractStage2
    extractStage3 strat2run
  rw [gvFold, ← foldDictObj_eq_gvFold]
  simp

theorem extract_fieldsIterRec (l : List (String × Cell))
    (h : ∀ kv ∈ l, kv.1 ≠ "") :
    _extract_fields_from_message (fieldsIterRec l)
      = if gvFold l ≠ [] then gvFold l else [] := by
  unfold _extract_fields_from_message fieldsIterRec strat1try extractStage2
    extractStage3 strat2run
  rw [gvFold, ← foldFO_eq_gvFold l [] h]
  simp

theorem extract_iterRec (l : List (String × Cell))
    (h : ∀ kv ∈ l, kv.1 ≠ "") :
    _extract_fields_from_message (iterRec l)
      = if gvFold l ≠ [] then gvFold l else [] := by
  unfold _extract_fields_from_message iterRec strat1try extractStage2 extractStage3
  rw [gvFold, ← foldFO_eq_gvFold l [] h]
  simp
  split <;> simp_all

/-- C3 (amended): the extractor produces identical mappings for the same
underlying (name, value) data across all supported record shapes —
`get_values()` dict, `fields` dict of plain values, `fields` dict of field
objects, `fields` iterable of field objects, and the record itself being
iterable — provided every field name is a non-empty string.  (Without that
proviso the direct-dict shape keeps a falsy-named field that the iterable
shapes drop; see the counterexample.) -/
theorem C3_strategy_equivalence (l : List (String × Cell))
    (h : ∀ kv ∈ l, kv.1 ≠ "") :
    _extract_fields_from_message (fieldsDictPlainRec l)
        = _extract_fields_from_message (gvRec l) ∧
    _extract_fields_from_message (fieldsDictObjRec l)
        = _extract_fields_from_message (gvRec l) ∧
    _extract_fields_from_message (fieldsIterRec l)
        = _extract_fields_from_message (gvRec l) ∧
    _extract_fields_from_message (iterRec l)
        = _extract_fields_from_message (gvRec l) := by
  rw [extract_gvRec, extract_fieldsDictPlainRec, extract_fieldsDictObjRec,
    extract_fieldsIterRec l h, extract_iterRec l h]
  exact ⟨rfl, rfl, rfl, rfl⟩

/-- C3 witness: the equivalence at a concrete record with a float field, an
int field and a null field. -/
theorem C3_strategy_equivalence_witness :
    _extract_fields_from_message (fieldsDictPlainRec
        [("speed", some (.float (7 / 2))), ("distance", some (.int 1000)), ("cadence", none)])
      = _extract_fields_from_message (gvRec
        [("speed", some (.float (7 / 2))), ("distance", some (.int 1000)), ("cadence", none)]) ∧
    _extract_fields_from_message (fieldsDictObjRec
        [("speed", some (.float (7 / 2))), ("distance", some (.int 1000)), ("cadence", none)])
      = _extract_fields_from_message (gvRec
        [("speed", some (.float (7 / 2))), ("distance", some (.int 1000)), ("cadence", none)]) ∧
    _extract_fields_from_message (fieldsIterRec
        [("speed", some (.float (7 / 2))), ("distance", some (.int 1000)), ("cadence", none)])
      = _extract_fields_from_message (gvRec
        [("speed", some (.float (7 / 2))), ("distance", some (.int 1000)), ("cadence", none)]) ∧
    _extract_fields_from_message (iterRec
        [("speed", some (.float (7 / 2))), ("distance", some (.int 1000)), ("cadence", none)])
      = _extract_fields_from_message (gvRec
        [("speed", some (.float (7 / 2))), ("distance", some (.int 1000)), ("cadence", none)]) :=
  C3_strategy_equivalence _ (by decide)

/-- C3 counterexample: for the underlying data [("", 1)] the direct
`get_values()` shape returns a one-entry mapping while the plain-iterable
shape returns the empty mapping — the claim's unconditional equivalence is
false. -/
theorem C3_counterexample :
    _extract_fields_from_message (gvRec [("", some (.int 1))])
      ≠ _extract_fields_from_message (iterRec [("", some (.int 1))]) := by
  decide

/-! ### Exception handling inside the extractor -/

theorem extractStage3_nothing (it : List FieldObj × Bool)
    (h : it.2 = true ∨ it.1.foldl applyFieldObj ([] : Row) = []) :
    extractStage3 [] it = [] := by
  unfold extractStage3
  rcases h with h | h
  · simp [h]
  · split
    · rfl
    · exact h

theorem extractStage2_nothing (r : Record)
    (h2 : match r.fields with
          | none => True
          | some fa => (strat2run fa).1 = [])
    (h3 : r.iteration.2 = true ∨ r.iteration.1.foldl applyFieldObj ([] : Row) = []) :
    extractStage2 r = [] := by
  unfold extractStage2
  cases hf : r.fields with
  | none => exact extractStage3_nothing r.iteration h3
  | some fa =>
      rw [hf] at h2
      simp only [h2, ne_eq, not_true_eq_false, and_false, if_false]
      exact extractStage3_nothing r.iteration h3

/-- C4 (amended): the extractor never propagates an exception — an
exception in strategy 1 falls through to strategies 2 and 3, an exception
in strategy 2 falls through to strategy 3 with the data accumulated so
far, and an exception in strategy 3 yields the empty mapping; and when
every strategy fails or yields nothing *and the failing strategies had
accumulated no entries before their exception*, the result is the empty
mapping.  (Entries accumulated by a strategy before its exception can
survive into the fallback's result; see the counterexample.) -/
theorem C4_extractor_swallows_exceptions :
    (∀ r : Record, r.get_values = some .raise →
        _extract_fields_from_message r = extractStage2 r) ∧
    (∀ r : Record, ∀ fa, r.fields = some fa → (strat2run fa).2 = true →
        extractStage2 r = extractStage3 (strat2run fa).1 r.iteration) ∧
    (∀ (d : Row) (it : List FieldObj × Bool), it.2 = true → extractStage3 d it = []) ∧
    (∀ r : Record,
        (strat1try r = .error () ∨ strat1try r = .ok []) →
        (match r.fields with
         | none => True
         | some fa => (strat2run fa).1 = []) →
        (r.iteration.2 = true ∨ r.iteration.1.foldl applyFieldObj ([] : Row) = []) →
        _extract_fields_from_message r = []) := by
  refine ⟨?_, ?_, ?_, ?_⟩
  · intro r h
    unfold _extract_fields_from_message
    have hs : strat1try r = .error () := by
      unfold strat1try
      rw [h]
    rw [hs]
  · intro r fa hf h2
    unfold extractStage2
    rw [hf]
    simp only [h2, Bool.true_eq_false, false_and, if_false]
  · intro d it h
    unfold extractStage3
    simp [h]
  · intro r h1 h2 h3
    unfold _extract_fields_from_message
    cases hs : strat1try r with
    | error e => exact extractStage2_nothing r h2 h3
    | ok d1 =>
        have hd1 : d1 = [] := by
          rcases h1 with h1 | h1
          · rw [hs] at h1
            cases h1
          · rw [hs] at h1
            exact (Except.ok.injEq _ _).mp h1
        subst hd1
        simpa using extractStage2_nothing r h2 h3

/-- C4 witness: each clause of the theorem applied at a concrete record. -/
theorem C4_extractor_swallows_exceptions_witness :
    _extract_fields_from_message ⟨some .raise, none, ([], true)⟩
        = extractStage2 ⟨some .raise, none, ([], true)⟩ ∧
    extractStage2 ⟨none, some (.dict [] true), ([], true)⟩
        = extractStage3 (strat2run (.dict [] true)).1 ([], true) ∧
    extractStage3 [("x", some (.int 2))] ([], true) = [] ∧
    _extract_fields_from_message ⟨none, none, ([], true)⟩ = [] :=
  ⟨C4_extractor_swallows_exceptions.1 _ rfl,
   C4_extractor_swallows_exceptions.2.1 _ _ rfl rfl,
   C4_extractor_swallows_exceptions.2.2.1 _ _ rfl,
   C4_extractor_swallows_exceptions.2.2.2 _ (Or.inr rfl) trivial (Or.inl rfl)⟩

/-- C4 counterexample: a record with no `get_values`, a `fields` dict whose
iteration raises after yielding one entry, and an own-iteration yielding no
items.  Every strategy failed or yielded nothing — strategy 1 is absent,
strategy 2 raised, strategy 3 iterated zero items — yet the extractor
returns the raising strategy's leftover entry instead of the empty mapping
the claim requires. -/
theorem C4_counterexample :
    (Record.mk none (some (.dict [("a", .plain (.int 1))] true)) ([], false)).get_values
        = none ∧
    (strat2run (.dict [("a", .plain (.int 1))] true)).2 = true ∧
    (Record.mk none (some (.dict [("a", .plain (.int 1))] true)) ([], false)).iteration.1
        = [] ∧
    _extract_fields_from_message
        (Record.mk none (some (.dict [("a", .plain (.int 1))] true)) ([], false))
      = [("a", some (.int 1))] := by
  decide

/-! ### run_id tagging -/

/-- C2 (amended): every row the loader contributes for a file carries
`run_id` equal to the file's name with only its final extension stripped
(Python `Path.stem`): "run1.fit" yields "run1", but "run1.fit.gz" yields
"run1.fit" — the compressed and the activity suffix are not both
stripped. -/
theorem C2_run_id_is_single_stem :
    (∀ (name : String) (df : DF), ∀ ir ∈ (tagRunId name df).rows,
        getCell ir.2 "run_id" = some (.str (stem name))) ∧
    stem "run1.fit" = "run1" ∧ stem "run1.fit.gz" = "run1.fit" := by
  refine ⟨?_, by decide, by decide⟩
  intro name df ir hmem
  unfold tagRunId at hmem
  obtain ⟨jr, _, hEq⟩ := mem_setColF_rows hmem
  rw [hEq]
  simp [getCell_setCell_eq]

/-- C2 witness: the tagging clause applied to a concrete frame and file
name. -/
theorem C2_run_id_is_single_stem_witness :
    getCell [("a", some (Value.int 1)), ("run_id", some (Value.str "run1.fit"))] "run_id"
      = some (Value.str "run1.fit") := by
  have h := C2_run_id_is_single_stem.1 "run1.fit.gz" (from_records [[("a", some (.int 1))]])
    (0, [("a", some (Value.int 1)), ("run_id", some (Value.str "run1.fit"))]) (by decide)
  simpa using h

/-- C2 counterexample: for a directory holding one gzipped file
`run1.fit.gz` whose single record carries `speed`, the loaded frame's
`run_id` cells all read "run1.fit", not the "run1" the claim demands. -/
theorem C2_counterexample :
    (load_fit_dir true [("run1.fit.gz",
        FitContent.msgs [some (gvRec [("speed", some (.int 3))])])]).toOption.map
        (fun p => p.1.rows.map (fun ir => getCell ir.2 "run_id"))
      = some [some (.str "run1.fit")] ∧ ("run1.fit" : String) ≠ "run1" := by
  constructor
  · decide
  · decide

/-! ### Empty batches -/

/-- C9: if zero directory entries match the extension pair, or every
matching file reads as empty (failed or no usable records), the loader
returns the zero-row zero-column frame rather than failing, and the batch
driver's write decision on that frame is to write nothing. -/
theorem C9_empty_batch_empty_table (avail : Bool) (files : List (String × FitContent))
    (h : ∀ f ∈ files, matchesFit f.1 = true →
      ∃ df lg, read_and_clean_fit avail f.1 f.2 = .ok (df, lg) ∧ df.isEmptyDF = true) :
    ∃ logs, load_fit_dir avail files = .ok (⟨[], []⟩, logs) ∧
      main_writes ⟨[], []⟩ = false := by
  have hloop : ∀ L : List (String × FitContent),
      (∀ f ∈ L, ∃ df lg, read_and_clean_fit avail f.1 f.2 = .ok (df, lg) ∧
        df.isEmptyDF = true) →
      ∃ logs, loadLoop avail L = .ok ([], logs) := by
    intro L
    induction L with
    | nil => exact fun _ => ⟨[], rfl⟩
    | cons f rest ih =>
        intro hall
        obtain ⟨name, c⟩ := f
        obtain ⟨df, lg, hok, hemp⟩ := hall _ (List.mem_cons_self _ _)
        obtain ⟨logs, hrest⟩ := ih (fun x hx => hall x (List.mem_cons_of_mem _ hx))
        refine ⟨lg ++ ("Skipping empty or unreadable file: " ++ name) :: logs, ?_⟩
        unfold loadLoop
        rw [hok, hrest]
        simp [hemp]
  have hall : ∀ f ∈ List.insertionSort fileLe (files.filter (fun f => matchesFit f.1)),
      ∃ df lg, read_and_clean_fit avail f.1 f.2 = .ok (df, lg) ∧ df.isEmptyDF = true := by
    intro f hf
    rw [List.mem_insertionSort, List.mem_filter] at hf
    exact h f hf.1 hf.2
  obtain ⟨logs, hL⟩ := hloop _ hall
  refine ⟨logs ++ ["No valid FIT files found"], ?_, rfl⟩
  unfold load_fit_dir
  dsimp only
  rw [hL]
  rfl

/-- C9 witness: an empty directory (zero matching files). -/
theorem C9_empty_batch_empty_table_witness :
    ∃ logs, load_fit_dir true [] = .ok (⟨[], []⟩, logs) ∧
      main_writes ⟨[], []⟩ = false :=
  C9_empty_batch_empty_table true [] (fun f hf _ => absurd hf (List.not_mem_nil f))

/-! ### Timestamp and pace behaviour of the derived-column pass -/

theorem renumberFrom_map_proj {β : Type} (g : Row → β) (i : Int) (rs : List Row) :
    (renumberFrom i rs).map (fun ir => g ir.2) = rs.map g := by
  induction rs generalizing i with
  | nil => rfl
  | cons r rs ih => simp [renumberFrom, ih]

theorem renumberFrom_length (i : Int) (rs : List Row) :
    (renumberFrom i rs).length = rs.length := by
  induction rs generalizing i with
  | nil => rfl
  | cons r rs ih => simp [renumberFrom, ih]

theorem renumber_map_proj {β : Type} (g : Row → β) (rs : List Row) :
    (renumber rs).map (fun ir => g ir.2) = rs.map g :=
  renumberFrom_map_proj g 0 rs

theorem from_records_isEmpty_false {rs : List Row} {c : String}
    (h : c ∈ (from_records rs).cols) : (from_records rs).isEmptyDF = false := by
  cases rs with
  | nil => simp [from_records, unionCols] at h
  | cons r rest =>
      have hc : (from_records (r :: rest)).cols ≠ [] := List.ne_nil_of_mem h
      unfold DF.isEmptyDF
      rw [Bool.or_eq_false_iff]
      constructor
      · simp [from_records, renumber, renumberFrom]
      · simpa [List.isEmpty_iff] using hc

/-- C6: whenever the input frame has a timestamp column and the
derived-column pass returns, every surviving row holds a parsed (non-null)
timestamp, the rows are in non-decreasing timestamp order, and the row
index is purely positional with no gaps; when the timestamp column is
absent, the row order (index labels) and the row count are untouched. -/
theorem C6_timestamp_sort_drop_reset (df res : DF)
    (hok : _add_derived_columns df = .ok res) :
    ("timestamp" ∈ df.cols →
      (∀ ir ∈ res.rows, ∃ t : Int, getCell ir.2 "timestamp" = some (.time t)) ∧
      List.Pairwise (· ≤ ·) (res.rows.map (fun ir => rowTsKey ir.2)) ∧
      res.rows.map Prod.fst = (List.range res.rows.length).map (fun k : Nat => (k : Int))) ∧
    ("timestamp" ∉ df.cols →
      res.rows.map Prod.fst = df.rows.map Prod.fst ∧
      res.rows.length = df.rows.length) := by
  by_cases h0 : df.isEmptyDF
  · have hres : res = df := by
      unfold _add_derived_columns at hok
      rw [if_pos h0] at hok
      exact ((Except.ok.injEq _ _).mp hok).symm
    subst hres
    constructor
    · intro hts
      have hrows : res.rows = [] := by
        have h0' : res.rows.isEmpty = true ∨ res.cols.isEmpty = true := by
          simpa [DF.isEmptyDF] using h0
        rcases h0' with h' | h'
        · exact List.isEmpty_iff.mp h'
        · exact absurd (List.isEmpty_iff.mp h') (List.ne_nil_of_mem hts)
      rw [hrows]
      exact ⟨fun ir hir => absurd hir (List.not_mem_nil ir), List.Pairwise.nil, rfl⟩
    · exact fun _ => ⟨rfl, rfl⟩
  · rw [Bool.not_eq_true] at h0
    obtain ⟨d, hts_iff, _, hfst, htsinv, _, hres⟩ := addDerived_ok_decomp h0 hok
    constructor
    · intro hts
      have htsd : "timestamp" ∈ d.cols := hts_iff.mpr hts
      rw [hres, if_pos htsd]
      refine ⟨?_, ?_, ?_⟩
      · intro ir hir
        have h2 := mem_renumberFrom hir
        rcases List.mem_map.mp h2 with ⟨jr, hjr, hEq⟩
        have hjr2 : jr ∈ (dropnaTimestamp d).rows := (List.mem_insertionSort tsRel).mp hjr
        obtain ⟨hjd, hpred⟩ := List.mem_filter.mp hjr2
        rcases htsinv hts jr hjd with hnone | ⟨t, ht⟩
        · rw [hnone] at hpred
          cases hpred
        · exact ⟨t, by rw [← hEq]; exact ht⟩
      · have hsorted : List.Sorted tsRel
            (List.insertionSort tsRel (dropnaTimestamp d).rows) :=
          List.sorted_insertionSort tsRel (dropnaTimestamp d).rows
        show List.Pairwise (· ≤ ·)
          ((renumber ((List.insertionSort tsRel (dropnaTimestamp d).rows).map
            Prod.snd)).map (fun ir => rowTsKey ir.2))
        rw [renumber_map_proj, List.map_map]
        exact List.pairwise_map.mpr hsorted
      · show (renumber ((sortByTimestamp (dropnaTimestamp d)).rows.map Prod.snd)).map Prod.fst
            = (List.range (renumber ((sortByTimestamp
                (dropnaTimestamp d)).rows.map Prod.snd)).length).map (fun k : Nat => (k : Int))
        rw [renumber_map_fst,
          show (renumber ((sortByTimestamp (dropnaTimestamp d)).rows.map Prod.snd)).length
              = ((sortByTimestamp (dropnaTimestamp d)).rows.map Prod.snd).length
            from renumberFrom_length 0 _]
    · intro hts
      have htsd : "timestamp" ∉ d.cols := fun hd => hts (hts_iff.mp hd)
      rw [hres, if_neg htsd]
      refine ⟨hfst, ?_⟩
      have := congrArg List.length hfst
      simpa using this

/-- Concrete frames used by the C6 and C7 witnesses. -/
def dfTsIn : DF :=
  from_records [[("timestamp", some (.time 5))], [("timestamp", none)],
    [("timestamp", some (.time 2))]]

def dfTsOut : DF :=
  { cols := ["timestamp"],
    rows := [(0, [("timestamp", some (Value.time 2))]),
             (1, [("timestamp", some (Value.time 5))])] }

def dfSpIn : DF :=
  from_records [[("speed", some (.float 2))], [("speed", some (.int 0))]]

def dfSpOut : DF :=
  { cols := ["speed", "pace_min_per_km"],
    rows := [(0, [("speed", some (Value.float 2)),
                  ("pace_min_per_km", some (Value.float ((1000 : Rat) / 2 / 60)))]),
             (1, [("speed", some (Value.int 0)), ("pace_min_per_km", none)])] }

/-- C6 witness: part one at a frame with timestamps 5, null, 2 (the null
row is dropped, the rest sorted and re-indexed), and part two at a frame
with no timestamp column (index labels untouched). -/
theorem C6_timestamp_sort_drop_reset_witness :
    ((∀ ir ∈ dfTsOut.rows, ∃ t : Int, getCell ir.2 "timestamp" = some (.time t)) ∧
     List.Pairwise (· ≤ ·) (dfTsOut.rows.map (fun ir => rowTsKey ir.2)) ∧
     dfTsOut.rows.map Prod.fst
       = (List.range dfTsOut.rows.length).map (fun k : Nat => (k : Int))) ∧
    (dfSpOut.rows.map Prod.fst = dfSpIn.rows.map Prod.fst ∧
     dfSpOut.rows.length = dfSpIn.rows.length) :=
  ⟨(C6_timestamp_sort_drop_reset dfTsIn dfTsOut rfl).1 (by decide),
   (C6_timestamp_sort_drop_reset dfSpIn dfSpOut rfl).2 (by decide)⟩


/-- C7: for every Activity Table (a frame built from extracted records)
having a speed column, the derived-column pass, when it returns, has added
`pace_min_per_km`, whose value per row is `(1000 / speed) / 60` when the
row's speed is a positive number and null when the speed is zero,
negative, null, a string, or a datetime — never an error. -/
theorem C7_pace_per_row (rs : List Row) (res : DF)
    (hsp : "speed" ∈ (from_records rs).cols)
    (hok : _add_derived_columns (from_records rs) = .ok res) :
    "pace_min_per_km" ∈ res.cols ∧
    ∀ ir ∈ res.rows,
      (∀ n : Int, getCell ir.2 "speed" = some (.int n) → 0 < n →
        getCell ir.2 "pace_min_per_km" = some (.float ((1000 : Rat) / (n : Rat) / 60))) ∧
      (∀ n : Int, getCell ir.2 "speed" = some (.int n) → n ≤ 0 →
        getCell ir.2 "pace_min_per_km" = none) ∧
      (∀ q : Rat, getCell ir.2 "speed" = some (.float q) → 0 < q →
        getCell ir.2 "pace_min_per_km" = some (.float ((1000 : Rat) / q / 60))) ∧
      (∀ q : Rat, getCell ir.2 "speed" = some (.float q) → q ≤ 0 →
        getCell ir.2 "pace_min_per_km" = none) ∧
      (∀ s : String, getCell ir.2 "speed" = some (.str s) →
        getCell ir.2 "pace_min_per_km" = none) ∧
      (∀ t : Int, getCell ir.2 "speed" = some (.time t) →
        getCell ir.2 "pace_min_per_km" = none) ∧
      (getCell ir.2 "speed" = none → getCell ir.2 "pace_min_per_km" = none) := by
  have h0 := from_records_isEmpty_false hsp
  obtain ⟨d, _, hpmem, _, _, hpinv, hres⟩ := addDerived_ok_decomp h0 hok
  have hpaceD : "pace_min_per_km" ∈ d.cols := hpmem hsp
  have hrowP := hpinv hsp
  constructor
  · rw [hres]
    split
    · exact hpaceD
    · exact hpaceD
  · intro ir hmem
    have hPir : getCell ir.2 "pace_min_per_km" = paceCell (getCell ir.2 "speed") := by
      rw [hres] at hmem
      by_cases hts : "timestamp" ∈ d.cols
      · rw [if_pos hts] at hmem
        have h2 := mem_renumberFrom hmem
        rcases List.mem_map.mp h2 with ⟨jr, hjr, hEq⟩
        have hjr2 : jr ∈ (dropnaTimestamp d).rows := (List.mem_insertionSort tsRel).mp hjr
        have hjd := List.mem_of_mem_filter hjr2
        rw [← hEq]
        exact hrowP jr hjd
      · rw [if_neg hts] at hmem
        exact hrowP ir hmem
    refine ⟨?_, ?_, ?_, ?_, ?_, ?_, ?_⟩
    · intro n hx hpos
      rw [hPir, hx]
      simp only [paceCell]
      rw [if_pos hpos]
    · intro n hx hnp
      rw [hPir, hx]
      simp only [paceCell]
      rw [if_neg (not_lt.mpr hnp)]
    · intro q hx hpos
      rw [hPir, hx]
      simp only [paceCell]
      rw [if_pos hpos]
    · intro q hx hnp
      rw [hPir, hx]
      simp only [paceCell]
      rw [if_neg (not_lt.mpr hnp)]
    · intro s hx
      rw [hPir, hx]
      rfl
    · intro t hx
      rw [hPir, hx]
      rfl
    · intro hx
      rw [hPir, hx]
      rfl

/-- C7 witness: a frame with speeds 2.0 and 0: the first row's pace is
(1000/2)/60 and the zero-speed row's pace is null. -/
theorem C7_pace_per_row_witness :
    "pace_min_per_km" ∈ dfSpOut.cols ∧
    getCell [("speed", some (Value.float 2)),
             ("pace_min_per_km", some (Value.float ((1000 : Rat) / 2 / 60)))] "pace_min_per_km"
      = some (.float ((1000 : Rat) / 2 / 60)) ∧
    getCell [("speed", some (Value.int 0)), ("pace_min_per_km", none)] "pace_min_per_km"
      = none := by
  have h := C7_pace_per_row [[("speed", some (.float 2))], [("speed", some (.int 0))]]
    dfSpOut (by decide) rfl
  refine ⟨h.1, ?_, ?_⟩
  · exact (h.2 (0, [("speed", some (Value.float 2)),
      ("pace_min_per_km", some (Value.float ((1000 : Rat) / 2 / 60)))])
      (List.mem_cons_self _ _)).2.2.1 2 rfl (by norm_num)
  · exact (h.2 (1, [("speed", some (Value.int 0)), ("pace_min_per_km", none)])
      (List.mem_cons_of_mem _ (List.mem_cons_self _ _))).2.1 0 rfl le_rfl

/-! ### Per-file failure handling in the directory loader -/

theorem concatDF_single_rows (f : DF) :
    (concatDF [f]).rows.map Prod.snd = f.rows.map Prod.snd := by
  show (renumber (([] : List Row) ++ f.rows.map Prod.snd)).map Prod.snd
      = f.rows.map Prod.snd
  rw [List.nil_append, renumber, renumberFrom_map_snd]

theorem read_and_clean_corrupt (name : String) :
    read_and_clean_fit true name .corrupt
      = .ok (⟨[], []⟩, ["Failed to read " ++ name]) := rfl

/-- C1 (amended): an exception raised while decoding a file or iterating
its messages or building its per-file table is caught inside the per-file
reader — not at the loader — which logs the failure naming the file and
returns an empty frame; the loader then skips the file with a logged
warning and continues, so a directory holding one decode-corrupt file and
one valid file yields exactly the valid file's rows, and the decode
failure is logged with the corrupt file's name.  No (filename, error text)
failure list is returned — failures surface only in the logs — and an
exception raised in the derived-column pass or the run_id tagging is not
caught anywhere and aborts the whole batch (see the counterexample). -/
theorem C1_decode_failures_logged_and_skipped
    (cname vname : String) (vc : FitContent) (df : DF) (lg : List String)
    (hc : matchesFit cname = true) (hv : matchesFit vname = true)
    (hok : read_and_clean_fit true vname vc = .ok (df, lg))
    (hne : df.isEmptyDF = false) :
    ∃ df' logs,
      load_fit_dir true [(cname, .corrupt), (vname, vc)] = .ok (df', logs) ∧
      df'.rows.map Prod.snd = (tagRunId vname df).rows.map Prod.snd ∧
      ("Failed to read " ++ cname) ∈ logs := by
  have hsingle : loadLoop true [(vname, vc)] = .ok ([tagRunId vname df], lg) := by
    rw [loadLoop, hok]
    simp [loadLoop, hne]
  have hcsingle : loadLoop true [(cname, .corrupt)]
      = .ok ([], ["Failed to read " ++ cname,
                  "Skipping empty or unreadable file: " ++ cname]) := by
    rw [loadLoop, read_and_clean_corrupt cname]
    rfl
  have hfilter : [(cname, FitContent.corrupt), (vname, vc)].filter
      (fun f => matchesFit f.1) = [(cname, FitContent.corrupt), (vname, vc)] := by
    simp [List.filter, hc, hv]
  unfold load_fit_dir
  dsimp only
  rw [hfilter]
  by_cases hle : fileLe (cname, FitContent.corrupt) (vname, vc)
  · rw [show List.insertionSort fileLe [(cname, FitContent.corrupt), (vname, vc)]
        = [(cname, FitContent.corrupt), (vname, vc)] from by
      simp [List.insertionSort, List.orderedInsert, if_pos hle]]
    have hA : loadLoop true [(cname, FitContent.corrupt), (vname, vc)]
        = .ok ([tagRunId vname df],
            ("Failed to read " ++ cname)
              :: ("Skipping empty or unreadable file: " ++ cname) :: lg) := by
      rw [loadLoop, read_and_clean_corrupt cname, hsingle]
      rfl
    rw [hA]
    exact ⟨concatDF [tagRunId vname df],
      ("Failed to read " ++ cname)
        :: ("Skipping empty or unreadable file: " ++ cname) :: lg,
      rfl, concatDF_single_rows _, List.mem_cons_self _ _⟩
  · rw [show List.insertionSort fileLe [(cname, FitContent.corrupt), (vname, vc)]
        = [(vname, vc), (cname, FitContent.corrupt)] from by
      simp [List.insertionSort, List.orderedInsert, if_neg hle]]
    have hB : loadLoop true [(vname, vc), (cname, FitContent.corrupt)]
        = .ok ([tagRunId vname df],
            lg ++ ("Failed to read " ++ cname)
              :: ("Skipping empty or unreadable file: " ++ cname) :: []) := by
      rw [loadLoop, hok, hcsingle]
      simp [hne]
    rw [hB]
    exact ⟨concatDF [tagRunId vname df],
      lg ++ ("Failed to read " ++ cname)
        :: ("Skipping empty or unreadable file: " ++ cname) :: [],
      rfl, concatDF_single_rows _,
      List.mem_append.mpr (Or.inr (List.mem_cons_self _ _))⟩

/-- C1 witness: a directory with corrupt `a.fit` and valid `b.fit` (one
record with integer speed 3). -/
theorem C1_decode_failures_logged_and_skipped_witness :
    ∃ df' logs,
      load_fit_dir true [("a.fit", FitContent.corrupt),
          ("b.fit", FitContent.msgs [some (gvRec [("speed", some (.int 3))])])]
        = .ok (df', logs) ∧
      df'.rows.map Prod.snd
        = (tagRunId "b.fit"
            { cols := ["speed", "pace_min_per_km"],
              rows := [(0, [("speed", some (Value.int 3)),
                ("pace_min_per_km",
                 some (Value.float ((1000 : Rat) / ((3 : Int) : Rat) / 60)))])] }).rows.map
            Prod.snd ∧
      ("Failed to read " ++ "a.fit") ∈ logs :=
  C1_decode_failures_logged_and_skipped "a.fit" "b.fit"
    (FitContent.msgs [some (gvRec [("speed", some (.int 3))])])
    { cols := ["speed", "pace_min_per_km"],
      rows := [(0, [("speed", some (Value.int 3)),
        ("pace_min_per_km",
         some (Value.float ((1000 : Rat) / ((3 : Int) : Rat) / 60)))])] }
    [] (by decide) (by decide) rfl rfl

/-- C1 counterexample: a directory with a single decodable file whose one
record carries a string-valued `distance`.  The derived-column pass raises
computing `distance / 1000.0`, nothing catches the exception, and the
whole batch aborts — refuting the claim that any exception during the
derived-column pass is caught and the batch never aborts. -/
theorem C1_counterexample :
    load_fit_dir true [("bad.fit",
        FitContent.msgs [some (gvRec [("distance", some (.str "oops"))])])]
      = .error () := by
  rfl

end FitReader
